import Mathlib

/-!
Verification of the keepalived SMTP checker (src/keepalived/check/check_smtp.c)
against its natural-language specification.

The C code is shallowly embedded: buffers are lists of byte values (Nat,
0..255, with the end of a list read as a NUL terminator), machine integers
are Nat/Int with explicit reductions modulo powers of two where the C
conversions matter, and every callback of the event scheduler becomes a pure
function from its inputs (checker state, thread wake-up kind, result of the
single read/write syscall the callback performs) to the successor state plus
the action the callback takes (re-register an I/O wait, invoke the stored
line callback, or funnel into smtp_final).
-/

namespace CheckSmtp

/-- Capacity of the rx/tx line buffer. Modelled from the spec: the header
check_smtp.h that defines SMTP_BUFF_MAX is not among the staged sources; the
spec only requires a fixed capacity (BUFMAX), and the upstream header sets
128. All theorems below use the constant only through its name, except the
concrete evaluations, which hold for this value. -/
def SMTP_BUFF_MAX : Nat := 128

/-- Byte of a C string at offset i: past the end of the modelled content the
memory holds the NUL terminator (the buffer is zero filled on clear). -/
def byteAt (s : List Nat) (i : Nat) : Nat := s.getD i 0

/-- C isspace in the POSIX locale: space or horizontal tab, newline,
vertical tab, form feed, carriage return (bytes 9..13). -/
def isSpaceB (c : Nat) : Bool := decide (c = 32 ∨ (9 ≤ c ∧ c ≤ 13))

/-- C isdigit: bytes 48..57. -/
def isDigitB (c : Nat) : Bool := decide (48 ≤ c ∧ c ≤ 57)

/-- Value of a decimal digit string, most significant first, accumulator
form exactly as strtoul folds the digits. -/
def digitsToNatAux : List Nat → Nat → Nat
  | [], acc => acc
  | c :: cs, acc => digitsToNatAux cs (acc * 10 + (c - 48))

/-- Value of a decimal digit string, most significant first. -/
def digitsToNat (l : List Nat) : Nat := digitsToNatAux l 0

/-- Largest unsigned long on the targeted LP64 platforms. -/
def ULONG_MAX : Nat := 2 ^ 64 - 1

/-- strtoul(buff, endptr, 10) of C99/POSIX as the code calls it: skip
isspace bytes, accept one optional sign, consume the maximal run of decimal
digits. Returns (endptr - buff, returned unsigned long). With no digit the
subject sequence is empty: endptr is reset to buff and 0 is returned. The
magnitude clamps to ULONG_MAX on overflow, and a leading minus negates the
value in the return type (modulo 2^64). -/
def strtoul10 (s : List Nat) : Nat × Nat :=
  let ws := (s.takeWhile isSpaceB).length
  let t := s.drop ws
  let c0 := byteAt t 0
  let sgn := if c0 = 43 ∨ c0 = 45 then 1 else 0
  let neg := c0 = 45
  let ds := (t.drop sgn).takeWhile isDigitB
  if ds.length = 0 then (0, 0)
  else
    let mag := min (digitsToNat ds) ULONG_MAX
    let v := if neg then (2 ^ 64 - mag) % 2 ^ 64 else mag
    (ws + sgn + ds.length, v)

/-- Conversion of an unsigned long value to int on the targeted platforms:
reduce modulo 2^32 and read as two-complement. -/
def toInt32 (n : Nat) : Int :=
  let m : Nat := n % 2 ^ 32
  if m < 2 ^ 31 then (m : Int) else (m : Int) - 2 ^ 32

/-- smtp_get_status (check_smtp.c:563-578): status = strtoul(buff, endptr, 10);
if endptr - buff != 3, or the byte at endptr is neither NUL nor a space,
return -1, else return status (as int). -/
def smtp_get_status (buff : List Nat) : Int :=
  let r := strtoul10 buff
  if r.1 ≠ 3 ∨ (byteAt buff r.1 ≠ 0 ∧ byteAt buff r.1 ≠ 32) then -1
  else toInt32 r.2

/-- Bytes of an ASCII string literal. -/
def asciiBytes (s : String) : List Nat := s.toList.map Char.toNat

/-- Number of decimal digits at the very start of the content. -/
def leadingDigitCount (s : List Nat) : Nat := (s.takeWhile isDigitB).length

/-- The Status Parser contract exactly as claim C1 words it: the parsed
integer iff exactly 3 digits are consumed starting at byte offset 0 and the
byte immediately following them is a space or end of content; the sentinel
-1 for every other input. -/
def statusSpecClaim (s : List Nat) : Int :=
  if leadingDigitCount s = 3 ∧ (byteAt s 3 = 0 ∨ byteAt s 3 = 32)
  then (digitsToNat (s.take 3) : Int) else -1

theorem digitsToNatAux_lt (l : List Nat) (hl : ∀ a ∈ l, isDigitB a = true) :
    ∀ acc, digitsToNatAux l acc < (acc + 1) * 10 ^ l.length := by
  induction l with
  | nil => intro acc; simp [digitsToNatAux]
  | cons c cs ih =>
    intro acc
    have hc : 48 ≤ c ∧ c ≤ 57 := by
      simpa [isDigitB] using hl c (List.mem_cons_self c cs)
    have step := ih (fun a ha => hl a (List.mem_cons_of_mem c ha)) (acc * 10 + (c - 48))
    calc digitsToNatAux (c :: cs) acc = digitsToNatAux cs (acc * 10 + (c - 48)) := rfl
      _ < (acc * 10 + (c - 48) + 1) * 10 ^ cs.length := step
      _ ≤ ((acc + 1) * 10) * 10 ^ cs.length := by
          have hmul : acc * 10 + (c - 48) + 1 ≤ (acc + 1) * 10 := by omega
          exact Nat.mul_le_mul hmul (Nat.le_refl _)
      _ = (acc + 1) * 10 ^ (c :: cs).length := by
          rw [List.length_cons, pow_succ]; ring

theorem strtoul10_digit_first (c : Nat) (t : List Nat) (hc : isDigitB c = true) :
    strtoul10 (c :: t) =
      (leadingDigitCount (c :: t),
       min (digitsToNat ((c :: t).takeWhile isDigitB)) ULONG_MAX) := by
  have h1 : 48 ≤ c ∧ c ≤ 57 := by simpa [isDigitB] using hc
  have hsp : isSpaceB c = false := by simp only [isSpaceB, decide_eq_false_iff_not]; omega
  have h4345 : ¬(c = 43 ∨ c = 45) := by omega
  have h45 : ¬(c = 45) := by omega
  simp only [strtoul10, List.takeWhile_cons, hsp, Bool.false_eq_true, if_false,
    List.length_nil, List.drop_zero, byteAt, List.getD_cons_zero, if_neg h4345,
    if_neg h45, leadingDigitCount, hc, if_true, Nat.zero_add]
  rw [if_neg (by simp)]

theorem toInt32_small (n : Nat) (h : n < 2 ^ 31) : toInt32 n = n := by
  have h32 : n < 2 ^ 32 := lt_trans h (by norm_num)
  unfold toInt32
  rw [Nat.mod_eq_of_lt h32, if_pos h]

theorem smtp_get_status_digit_first (s : List Nat) (h : isDigitB (byteAt s 0) = true) :
    smtp_get_status s = statusSpecClaim s := by
  match s with
  | [] => simp [byteAt, isDigitB] at h
  | c :: t =>
    have hc : isDigitB c = true := by simpa [byteAt] using h
    have hst := strtoul10_digit_first c t hc
    by_cases h3 : leadingDigitCount (c :: t) = 3
    · have hds : (c :: t).takeWhile isDigitB = (c :: t).take 3 := by
        have hpre := List.prefix_iff_eq_take.mp (List.takeWhile_prefix isDigitB (l := c :: t))
        conv_lhs => rw [hpre]
        rw [show ((c :: t).takeWhile isDigitB).length = 3 from h3]
      have hbound : digitsToNat ((c :: t).takeWhile isDigitB) < 1000 := by
        have hall : ∀ a ∈ (c :: t).takeWhile isDigitB, isDigitB a = true :=
          fun a ha => List.mem_takeWhile_imp ha
        have hx := digitsToNatAux_lt ((c :: t).takeWhile isDigitB) hall 0
        rw [show ((c :: t).takeWhile isDigitB).length = 3 from h3] at hx
        have he : (0 + 1) * 10 ^ (3 : Nat) = 1000 := by norm_num
        rw [he] at hx
        exact hx
      have hmin : min (digitsToNat ((c :: t).takeWhile isDigitB)) ULONG_MAX =
          digitsToNat ((c :: t).take 3) := by
        rw [← hds, min_eq_left]
        unfold ULONG_MAX
        omega
      by_cases hnext : byteAt (c :: t) 3 = 0 ∨ byteAt (c :: t) 3 = 32
      · have hL : smtp_get_status (c :: t) = toInt32 (digitsToNat ((c :: t).take 3)) := by
          simp only [smtp_get_status, hst, h3, hmin]
          rw [if_neg]
          rcases hnext with h0 | h32
          · intro hor
            rcases hor with hne | ⟨ha, _⟩
            · exact hne rfl
            · exact ha h0
          · intro hor
            rcases hor with hne | ⟨_, hb⟩
            · exact hne rfl
            · exact hb h32
        have hR : statusSpecClaim (c :: t) = (digitsToNat ((c :: t).take 3) : Int) := by
          unfold statusSpecClaim
          rw [if_pos ⟨h3, hnext⟩]
        have hb31 : digitsToNat ((c :: t).take 3) < 2 ^ 31 := by
          rw [← hds]
          exact lt_trans hbound (by norm_num)
        rw [hL, hR, toInt32_small _ hb31]
      · have hL : smtp_get_status (c :: t) = -1 := by
          simp only [smtp_get_status, hst, h3]
          rw [if_pos]
          right
          exact ⟨fun h0 => hnext (Or.inl h0), fun h32 => hnext (Or.inr h32)⟩
        have hR : statusSpecClaim (c :: t) = -1 := by
          unfold statusSpecClaim
          rw [if_neg (fun hand => hnext hand.2)]
        rw [hL, hR]
    · have hL : smtp_get_status (c :: t) = -1 := by
        simp only [smtp_get_status, hst]
        rw [if_pos (Or.inl h3)]
      have hR : statusSpecClaim (c :: t) = -1 := by
        unfold statusSpecClaim
        rw [if_neg (fun hand => h3 hand.1)]
      rw [hL, hR]

/-- C1 counterexample: the buffer holding one leading space and the two
digits 2 and 5 has no 3-digit prefix at offset 0, so by the claim the
parser must return the sentinel -1; the code returns 25 because strtoul
skips the leading whitespace and its end pointer still lands exactly 3
bytes past the start of the buffer. -/
theorem smtp_get_status_claim_cex :
    smtp_get_status (asciiBytes " 25") = 25 ∧ statusSpecClaim (asciiBytes " 25") = -1 :=
  ⟨by decide, by decide⟩

/-- C1 (amended): for every buffer whose first byte is a decimal digit the
Status Parser returns the parsed integer iff exactly 3 digits are consumed
at offset 0 and the byte after them is a space or end of content, and the
sentinel -1 otherwise; the four examples of the claim hold. Because the
parser is strtoul based, content whose scan prefix includes leading
whitespace or one sign character such that exactly 3 bytes are consumed in
total also yields the converted value instead of -1. -/
theorem smtp_get_status_spec :
    (∀ s, isDigitB (byteAt s 0) = true → smtp_get_status s = statusSpecClaim s) ∧
    smtp_get_status (asciiBytes "250 OK") = 250 ∧
    smtp_get_status (asciiBytes "25 OK") = -1 ∧
    smtp_get_status (asciiBytes "2500K") = -1 ∧
    smtp_get_status (asciiBytes "250") = 250 ∧
    smtp_get_status (asciiBytes " 25") = 25 ∧
    smtp_get_status (asciiBytes "+25") = 25 ∧
    smtp_get_status (asciiBytes "-25") = -25 :=
  ⟨smtp_get_status_digit_first, by decide, by decide, by decide, by decide,
   by decide, by decide, by decide⟩

/-! ## Line Buffer and Socket I/O Driver

smtp_clear_buff, smtp_get_line, smtp_get_line_cb, smtp_put_line and
smtp_put_line_cb (check_smtp.c:370-556). A callback of the scheduler is a
pure function of the buffer state, the wake-up kind of the thread and the
result of the one read/write syscall it performs; its output is the new
buffer state plus the action taken. -/

/-- The per target connection options the checker reads at run time: the
code uses one field of conn_opts_t, the single connection timeout
connection_to, for every read and write wait. -/
structure ConnOpts where
  connection_to : Nat
deriving DecidableEq

/-- The shared rx/tx buffer of smtp_checker_t: the byte array buff (always
of length SMTP_BUFF_MAX) and the fill cursor buff_ctr. -/
structure SmtpBuff where
  buff : List Nat
  buff_ctr : Nat
deriving DecidableEq

/-- The error messages smtp_final can be handed, by call site. -/
inductive ErrTag
  | readTimeout
  | readFailure
  | writeTimeout
  | writeFailure
  | badBanner
  | badHelo
  | unknownState
  | connectError
  | connectTimeout
deriving DecidableEq

/-- Wake-up kind of a scheduler thread: woken by its timeout or ready. -/
inductive ThreadType
  | readTimeout
  | writeTimeout
  | ready
deriving DecidableEq

/-- Result of the one read(2) call the read callback performs: -1 with
EAGAIN or EINTR; the bytes actually read (the empty list is r = 0: end of
stream, or a zero length read when the buffer is already full); or -1 with
a hard errno. -/
inductive ReadRes
  | again
  | ok (bytes : List Nat)
  | err
deriving DecidableEq

/-- Result of the one write(2) call the write callback performs. -/
inductive WriteRes
  | again
  | wrote (n : Nat)
  | err
deriving DecidableEq

/-- Direction of a registered I/O wait. -/
inductive IOKind
  | read
  | write
deriving DecidableEq

/-- An I/O wait registered with the scheduler: its direction and the
timeout handed to thread_add_read or thread_add_write. -/
structure Reg where
  kind : IOKind
  timeout : Nat
deriving DecidableEq

/-- Action taken by an I/O callback: funnel an error into smtp_final,
re-register the same wait with the given timeout, or invoke the stored
line callback buff_cb. -/
inductive CbOut
  | finalErr (tag : ErrTag)
  | reregister (timeout : Nat)
  | deliver
deriving DecidableEq

/-- smtp_clear_buff (check_smtp.c:370-377): memset the whole buffer to 0
and reset the fill cursor. -/
def smtp_clear_buff : SmtpBuff :=
  { buff := List.replicate SMTP_BUFF_MAX 0, buff_ctr := 0 }

/-- The overflow guard at the top of smtp_get_line_cb
(check_smtp.c:402): buff_ctr strictly greater than SMTP_BUFF_MAX. -/
def overflowGuard (b : SmtpBuff) : Bool := decide (SMTP_BUFF_MAX < b.buff_ctr)

/-- Appending the bytes a read returned at the fill cursor, advancing it:
read(fd, buff + buff_ctr, SMTP_BUFF_MAX - buff_ctr) followed by
buff_ctr += r. -/
def appendRead (b : SmtpBuff) (bytes : List Nat) : SmtpBuff :=
  { buff := b.buff.take b.buff_ctr ++ bytes ++ b.buff.drop (b.buff_ctr + bytes.length),
    buff_ctr := b.buff_ctr + bytes.length }

/-- The newline scan of smtp_get_line_cb: some byte of the buffer array is
a line feed. -/
def hasNewline (b : SmtpBuff) : Bool := b.buff.contains 10

/-- buff[SMTP_BUFF_MAX - 1] = NUL, as done before delivering a line and at
the top of smtp_put_line. -/
def termBuff (b : SmtpBuff) : SmtpBuff :=
  { b with buff := b.buff.set (SMTP_BUFF_MAX - 1) 0 }

/-- smtp_get_line_cb (check_smtp.c:385-453): on read timeout fail to
smtp_final; clear the buffer if the overflow guard holds; perform one read;
EAGAIN/EINTR re-registers the read wait with connection_to; a positive
count is appended; if the array now holds a newline, terminate and deliver
to buff_cb; otherwise a nonpositive count fails to smtp_final as a read
failure, and a positive one re-registers the read wait with
connection_to. -/
def smtp_get_line_cb (co : ConnOpts) (b : SmtpBuff) (tt : ThreadType) (r : ReadRes) :
    SmtpBuff × CbOut :=
  if tt = ThreadType.readTimeout then (b, CbOut.finalErr ErrTag.readTimeout)
  else
    let b := if overflowGuard b then smtp_clear_buff else b
    match r with
    | ReadRes.again => (b, CbOut.reregister co.connection_to)
    | ReadRes.ok bytes =>
      let b := if 0 < bytes.length then appendRead b bytes else b
      if hasNewline b then (termBuff b, CbOut.deliver)
      else if bytes.length = 0 then (b, CbOut.finalErr ErrTag.readFailure)
      else (b, CbOut.reregister co.connection_to)
    | ReadRes.err =>
      if hasNewline b then (termBuff b, CbOut.deliver)
      else (b, CbOut.finalErr ErrTag.readFailure)

/-- smtp_get_line (check_smtp.c:464-482): clear the buffer, register a
read wait with the connection timeout (cancelling any write wait). -/
def smtp_get_line (co : ConnOpts) : SmtpBuff × Reg :=
  (smtp_clear_buff, { kind := IOKind.read, timeout := co.connection_to })

/-- C strlen on the modelled array: bytes before the first NUL. -/
def cstrlen (l : List Nat) : Nat := (l.takeWhile (fun c => decide (c ≠ 0))).length

/-- Buffer effect of smtp_put_line (check_smtp.c:545-546):
buff[SMTP_BUFF_MAX - 1] = NUL, then buff_ctr = strlen(buff). -/
def putLineBuff (b : SmtpBuff) : SmtpBuff :=
  let t := termBuff b
  { buff := t.buff, buff_ctr := cstrlen t.buff }

/-- smtp_put_line (check_smtp.c:538-556): terminate the buffer, set the
cursor to the string length, register a write wait with the connection
timeout (cancelling any read wait). -/
def smtp_put_line (co : ConnOpts) (b : SmtpBuff) : SmtpBuff × Reg :=
  (putLineBuff b, { kind := IOKind.write, timeout := co.connection_to })

/-- smtp_put_line_cb (check_smtp.c:490-532): on write timeout fail to
smtp_final; perform one write of the buffer; EAGAIN/EINTR re-registers the
write wait with connection_to; a nonpositive count fails to smtp_final as
a write failure; otherwise deliver to buff_cb. The buffer is not
mutated. -/
def smtp_put_line_cb (co : ConnOpts) (tt : ThreadType) (w : WriteRes) : CbOut :=
  if tt = ThreadType.writeTimeout then CbOut.finalErr ErrTag.writeTimeout
  else
    match w with
    | WriteRes.again => CbOut.reregister co.connection_to
    | WriteRes.wrote n => if n = 0 then CbOut.finalErr ErrTag.writeFailure else CbOut.deliver
    | WriteRes.err => CbOut.finalErr ErrTag.writeFailure

/-! ## Protocol State Machine

smtp_engine_thread (check_smtp.c:587-663). -/

/-- Protocol state values. Modelled from the spec: check_smtp.h, which
defines the SMTP_* state constants, is not among the staged sources; the
spec names six states driven through one switch with a defensive default,
so the states are six distinct naturals and every other natural falls to
the default branch. -/
def SMTP_START : Nat := 0

/-- Second protocol state: the greeting banner has been received. -/
def SMTP_HAVE_BANNER : Nat := 1

/-- Third protocol state: the HELO line has been sent. -/
def SMTP_SENT_HELO : Nat := 2

/-- Fourth protocol state: the HELO reply has been received. -/
def SMTP_RECV_HELO : Nat := 3

/-- Fifth protocol state: the QUIT line has been sent. -/
def SMTP_SENT_QUIT : Nat := 4

/-- Sixth protocol state: the QUIT reply has been received. -/
def SMTP_RECV_QUIT : Nat := 5

/-- Action the engine takes on one invocation: schedule smtp_get_line,
schedule smtp_put_line, or call smtp_final with an error flag and an
optional message. -/
inductive EngineAct
  | getLine
  | putLine
  | final (error : Bool) (msg : Option ErrTag)
deriving DecidableEq

/-- snprintf(buff, SMTP_BUFF_MAX, ...) with the already formatted bytes:
at most SMTP_BUFF_MAX - 1 bytes are written, a NUL follows them, the tail
of the array keeps its previous content, and the fill cursor is not
touched. -/
def snprintfBuff (b : SmtpBuff) (msg : List Nat) : SmtpBuff :=
  let w := msg.take (SMTP_BUFF_MAX - 1)
  { b with buff := w ++ [0] ++ b.buff.drop (w.length + 1) }

/-- The formatted HELO line: snprintf(buff, SMTP_BUFF_MAX, "HELO %s\r\n",
helo_name) before truncation. -/
def heloMsg (helo : List Nat) : List Nat :=
  asciiBytes "HELO " ++ helo ++ asciiBytes "\r\n"

/-- The formatted QUIT line. -/
def quitMsg : List Nat := asciiBytes "QUIT\r\n"

/-- smtp_engine_thread (check_smtp.c:587-663): the switch on
smtp_checker state. Each invocation happens inside the callback of the
I/O operation that just completed; the returned buffer already includes
the effect of the smtp_get_line clear or of the snprintf plus
smtp_put_line cursor update that the branch performs. -/
def smtp_engine_thread (helo : List Nat) (state : Nat) (b : SmtpBuff) :
    Nat × SmtpBuff × EngineAct :=
  if state = SMTP_START then
    (SMTP_HAVE_BANNER, smtp_clear_buff, EngineAct.getLine)
  else if state = SMTP_HAVE_BANNER then
    if smtp_get_status b.buff ≠ 220 then
      (state, b, EngineAct.final true (some ErrTag.badBanner))
    else
      (SMTP_SENT_HELO, putLineBuff (snprintfBuff b (heloMsg helo)), EngineAct.putLine)
  else if state = SMTP_SENT_HELO then
    (SMTP_RECV_HELO, smtp_clear_buff, EngineAct.getLine)
  else if state = SMTP_RECV_HELO then
    if smtp_get_status b.buff ≠ 250 then
      (state, b, EngineAct.final true (some ErrTag.badHelo))
    else
      (SMTP_SENT_QUIT, putLineBuff (snprintfBuff b quitMsg), EngineAct.putLine)
  else if state = SMTP_SENT_QUIT then
    (SMTP_RECV_QUIT, smtp_clear_buff, EngineAct.getLine)
  else if state = SMTP_RECV_QUIT then
    (state, b, EngineAct.final false none)
  else
    (state, b, EngineAct.final true (some ErrTag.unknownState))

/-- Buffer as smtp_get_line_cb hands it to the engine when the peer sends
one whole line in one packet: cleared, the line bytes appended, the last
array byte set to NUL. -/
def feedLine (line : List Nat) : SmtpBuff := termBuff (appendRead smtp_clear_buff line)

/-- Drive of one protocol session, fuelled: run the engine; a getLine
action consumes the next inbound line (the driver stalls with no verdict
when none is left); a putLine action records the buff_ctr bytes the write
callback puts on the wire and re-invokes the engine as the send completion
callback does; a final action is the verdict. Returns the sent lines and
the optional (error flag, message) handed to smtp_final. -/
def runSession (helo : List Nat) : Nat → Nat → SmtpBuff → List (List Nat) →
    List (List Nat) → List (List Nat) × Option (Bool × Option ErrTag)
  | 0, _, _, _, sent => (sent, none)
  | fuel + 1, state, b, lines, sent =>
    match smtp_engine_thread helo state b with
    | (st, _, EngineAct.getLine) =>
      match lines with
      | [] => (sent, none)
      | l :: rest => runSession helo fuel st (feedLine l) rest sent
    | (st, b2, EngineAct.putLine) =>
      runSession helo fuel st b2 lines (sent ++ [b2.buff.take b2.buff_ctr])
    | (_, _, EngineAct.final e m) => (sent, some (e, m))

set_option maxRecDepth 8000

def co5 : ConnOpts := { connection_to := 5 }

def fullBuff : SmtpBuff :=
  (smtp_get_line_cb co5 smtp_clear_buff ThreadType.ready
    (ReadRes.ok (List.replicate SMTP_BUFF_MAX 65))).1

def ValidRead (b : SmtpBuff) (r : ReadRes) : Prop :=
  match r with
  | ReadRes.ok bytes =>
      bytes.length ≤ SMTP_BUFF_MAX - (if overflowGuard b then smtp_clear_buff else b).buff_ctr
  | _ => True

inductive BuffStep : SmtpBuff → SmtpBuff → Prop
  | getLine (b : SmtpBuff) : BuffStep b smtp_clear_buff
  | getLineCb (b : SmtpBuff) (co : ConnOpts) (tt : ThreadType) (r : ReadRes)
      (h : ValidRead b r) : BuffStep b (smtp_get_line_cb co b tt r).1
  | putLine (b : SmtpBuff) (co : ConnOpts) : BuffStep b (smtp_put_line co b).1
  | engine (b : SmtpBuff) (helo : List Nat) (state : Nat) :
      BuffStep b (smtp_engine_thread helo state b).2.1

def ReachableBuff (b : SmtpBuff) : Prop :=
  Relation.ReflTransGen BuffStep smtp_clear_buff b

def WFBuff (b : SmtpBuff) : Prop :=
  b.buff.length = SMTP_BUFF_MAX ∧ b.buff_ctr ≤ SMTP_BUFF_MAX

theorem wf_clear : WFBuff smtp_clear_buff :=
  ⟨by simp [smtp_clear_buff], by simp [smtp_clear_buff]⟩

theorem wf_term (b : SmtpBuff) (h : WFBuff b) : WFBuff (termBuff b) :=
  ⟨by simp [termBuff, h.1], h.2⟩

theorem wf_append (b : SmtpBuff) (bytes : List Nat) (h : WFBuff b)
    (hlen : b.buff_ctr + bytes.length ≤ SMTP_BUFF_MAX) :
    WFBuff (appendRead b bytes) := by
  constructor
  · simp only [appendRead, List.length_append, List.length_take, List.length_drop, h.1]
    omega
  · simpa [appendRead] using hlen

theorem cstrlen_le (l : List Nat) : cstrlen l ≤ l.length :=
  (List.takeWhile_prefix _).length_le

theorem wf_putLine (b : SmtpBuff) (h : WFBuff b) : WFBuff (putLineBuff b) := by
  have hl : (termBuff b).buff.length = SMTP_BUFF_MAX := (wf_term b h).1
  refine ⟨hl, ?_⟩
  have := cstrlen_le (termBuff b).buff
  simp only [putLineBuff]
  omega

theorem wf_snprintf (b : SmtpBuff) (msg : List Nat) (h : WFBuff b) :
    WFBuff (snprintfBuff b msg) := by
  constructor
  · simp only [snprintfBuff, List.length_append, List.length_take, List.length_drop,
      List.length_cons, List.length_nil, h.1, SMTP_BUFF_MAX]
    omega
  · exact h.2

theorem wf_getLineCb (co : ConnOpts) (b : SmtpBuff) (tt : ThreadType) (r : ReadRes)
    (h : WFBuff b) (hr : ValidRead b r) : WFBuff (smtp_get_line_cb co b tt r).1 := by
  cases r with
  | again =>
    by_cases hg : overflowGuard b = true
    · simp only [smtp_get_line_cb, hg, if_true]
      split_ifs <;> first | exact (show False by assumption).elim | exact h | exact wf_clear
    · simp only [smtp_get_line_cb, hg]
      split_ifs <;> first | exact (show False by assumption).elim | exact h
  | ok bytes =>
    have hr2 := hr
    simp only [ValidRead] at hr2
    by_cases hg : overflowGuard b = true
    · have hr3 : bytes.length ≤ SMTP_BUFF_MAX := by
        simp only [hg, if_true] at hr2
        simpa [smtp_clear_buff] using hr2
      have happ : WFBuff (appendRead smtp_clear_buff bytes) :=
        wf_append _ _ wf_clear (by simpa [smtp_clear_buff] using hr3)
      simp only [smtp_get_line_cb, hg, if_true]
      split_ifs <;>
        first
          | exact (show False by assumption).elim
          | exact h
          | exact wf_clear
          | exact happ
          | exact wf_term _ happ
    · have hr3 : bytes.length ≤ SMTP_BUFF_MAX - b.buff_ctr := by
        simpa only [hg, if_false] using hr2
      have happ : WFBuff (appendRead b bytes) :=
        wf_append _ _ h (by have := h.2; omega)
      simp only [smtp_get_line_cb, hg]
      split_ifs <;>
        first
          | exact (show False by assumption).elim
          | exact h
          | exact happ
          | exact wf_term _ happ
          | exact wf_term _ h
  | err =>
    by_cases hg : overflowGuard b = true
    · simp only [smtp_get_line_cb, hg, if_true]
      split_ifs <;>
        first
          | exact (show False by assumption).elim
          | exact h
          | exact wf_clear
    · simp only [smtp_get_line_cb, hg]
      split_ifs <;>
        first
          | exact (show False by assumption).elim
          | exact h
          | exact wf_term _ h

theorem wf_engine (helo : List Nat) (state : Nat) (b : SmtpBuff) (h : WFBuff b) :
    WFBuff (smtp_engine_thread helo state b).2.1 := by
  unfold smtp_engine_thread
  repeat' split
  all_goals first
    | exact wf_clear
    | exact h
    | exact wf_putLine _ (wf_snprintf _ _ h)

theorem buffStep_wf (b b2 : SmtpBuff) (hw : WFBuff b) (h : BuffStep b b2) : WFBuff b2 := by
  cases h with
  | getLine => exact wf_clear
  | getLineCb co tt r hr => exact wf_getLineCb co b tt r hw hr
  | putLine co => exact wf_putLine b hw
  | engine helo state => exact wf_engine helo state b hw

theorem reachable_wf (b : SmtpBuff) (h : ReachableBuff b) : WFBuff b := by
  induction h with
  | refl => exact wf_clear
  | tail _ hs ih => exact buffStep_wf _ _ ih hs

/-- C10: after every buffer operation -- clearing, a bounded append read,
the cursor update of smtp_put_line -- the fill cursor stays at most
SMTP_BUFF_MAX, so the overflow guard at the top of the read callback is
never satisfied in any reachable buffer state. -/
theorem buff_ctr_le_max (b : SmtpBuff) (h : ReachableBuff b) :
    b.buff_ctr ≤ SMTP_BUFF_MAX ∧ overflowGuard b = false := by
  have hw := reachable_wf b h
  refine ⟨hw.2, ?_⟩
  simp only [overflowGuard, decide_eq_false_iff_not, not_lt]
  exact hw.2

/-! ## Finalization and the Connect Orchestrator

smtp_final (check_smtp.c:275-365) and smtp_connect_thread
(check_smtp.c:718-825). -/

/-- The checker and backend record fields the two functions read and
write: checker_t (retry_it, retry, delay_before_retry, delay_loop, is_up,
has_run, enabled), the backend record rs (alive, smtp_alert), the global
no_checker_emails flag, and the smtp_checker_t target index host_ctr. -/
structure CheckerState where
  retry_it : Nat
  retry : Nat
  delay_before_retry : Nat
  delay_loop : Nat
  is_up : Bool
  has_run : Bool
  rs_alive : Bool
  rs_smtp_alert : Bool
  no_checker_emails : Bool
  enabled : Bool
  host_ctr : Nat
deriving DecidableEq

/-- Modelled from the spec: update_svr_checker_state lives in ipwrapper.c,
which is not among the staged sources. Per the spec it is the health-state
transition call exposed to the control plane, taking the backend and the
new state; it records the new up/down state of this checker and that a
check has completed. Whether the shared backend alive flag flips depends
on the other checkers of the same backend, so the resulting alive value is
supplied by the environment as the oracle argument newAlive. -/
def update_svr_checker_state (up : Bool) (newAlive : Bool) (st : CheckerState) : CheckerState :=
  { st with is_up := up, has_run := true, rs_alive := newAlive }

/-- Observable outcome of one smtp_final call: the mutated state, whether
update_svr_checker_state(DOWN) was called, whether smtp_alert was called,
and the delay of the timer re-registering smtp_connect_thread. -/
structure FinalOut where
  st : CheckerState
  downCalled : Bool
  alerted : Bool
  delay : Nat
deriving DecidableEq

/-- smtp_final (check_smtp.c:275-365) with the given error flag; newAlive
is the backend alive flag as update_svr_checker_state leaves it. The
socket close and the logging have no further observable effect and are not
recorded. -/
def smtp_final (st0 : CheckerState) (error : Bool) (newAlive : Bool) : FinalOut :=
  let st := { st0 with retry_it := st0.retry_it + 1 }
  if error then
    if st.retry_it < st.retry then
      { st := st, downCalled := false, alerted := false, delay := st.delay_before_retry }
    else
      let checker_was_up := st.is_up
      let rs_was_alive := st.rs_alive
      let downCalled := st.is_up || !st.has_run
      let st2 := if st.is_up || !st.has_run then update_svr_checker_state false newAlive st else st
      let alerted := downCalled && st2.rs_smtp_alert && checker_was_up &&
        ((rs_was_alive != st2.rs_alive) || !st2.no_checker_emails)
      { st := { st2 with retry_it := 0, host_ctr := 0 }, downCalled := downCalled,
        alerted := alerted, delay := st.delay_loop }
  else
    { st := { st with retry_it := 0, host_ctr := st.host_ctr + 1 }, downCalled := false,
      alerted := false, delay := 1 }

/-- What the Connect Orchestrator does with the scheduler at the end of
one invocation: re-register itself on a timer, or hand the connection to
smtp_check_thread. -/
inductive ConnAction
  | timerSelf
  | handToCheck
deriving DecidableEq

/-- Observable outcome of one smtp_connect_thread call. -/
structure ConnectOut where
  st : CheckerState
  upCalled : Bool
  alerted : Bool
  action : ConnAction
  delay : Option Nat
deriving DecidableEq

/-- smtp_connect_thread (check_smtp.c:718-825). nhosts is the length of
the configured target list, so list_element(host, host_ctr) is NULL iff
nhosts is at most host_ctr; socketOk is whether socket(2) succeeded and
bindOk whether tcp_connection_state accepted the bind and connect; newAlive
is the oracle for the backend alive flag after an UP transition. The
host_ptr field the code also assigns is always list_element(host, host_ctr),
derived state carried by no claim, and is not modelled separately. -/
def smtp_connect_thread (st : CheckerState) (nhosts : Nat)
    (socketOk bindOk newAlive : Bool) : ConnectOut :=
  if !st.enabled then
    { st := st, upCalled := false, alerted := false,
      action := ConnAction.timerSelf, delay := some st.delay_loop }
  else if nhosts ≤ st.host_ctr then
    let checker_was_up := st.is_up
    let rs_was_alive := st.rs_alive
    let upCalled := !st.is_up || !st.has_run
    let st2 := if !st.is_up || !st.has_run then update_svr_checker_state true newAlive st else st
    let alerted := upCalled && st2.rs_smtp_alert && !checker_was_up &&
      ((rs_was_alive != st2.rs_alive) || !st2.no_checker_emails)
    { st := { st2 with retry_it := 0, host_ctr := 0 }, upCalled := upCalled,
      alerted := alerted, action := ConnAction.timerSelf, delay := some st.delay_loop }
  else if !socketOk then
    { st := st, upCalled := false, alerted := false,
      action := ConnAction.timerSelf, delay := some st.delay_loop }
  else if !bindOk then
    { st := st, upCalled := false, alerted := false,
      action := ConnAction.timerSelf, delay := some st.delay_loop }
  else
    { st := st, upCalled := false, alerted := false,
      action := ConnAction.handToCheck, delay := none }

theorem smtp_final_retry_frame (st : CheckerState) (a : Bool)
    (h : st.retry_it + 1 < st.retry) :
    smtp_final st true a =
      { st := { st with retry_it := st.retry_it + 1 },
        downCalled := false, alerted := false, delay := st.delay_before_retry } := by
  simp [smtp_final, h]

theorem smtp_final_retry_bound (s : CheckerState) (e a : Bool) :
    (smtp_final s e a).st.retry_it = 0 ∨ (smtp_final s e a).st.retry_it < s.retry := by
  cases e with
  | false => left; simp [smtp_final]
  | true =>
    by_cases hr : s.retry_it + 1 < s.retry
    · right
      have hv : (smtp_final s true a).st.retry_it = s.retry_it + 1 := by
        simp [smtp_final, hr]
      rw [hv]
      exact hr
    · left
      simp [smtp_final, hr]

theorem smtp_final_down_idem (s : CheckerState) (a : Bool)
    (h1 : s.is_up = false) (h2 : s.has_run = true) :
    (smtp_final s true a).downCalled = false ∧ (smtp_final s true a).alerted = false ∧
    (smtp_final s true a).st.is_up = false ∧ (smtp_final s true a).st.has_run = true := by
  by_cases hr : s.retry_it + 1 < s.retry
  · simp [smtp_final, hr, h1, h2]
  · simp [smtp_final, hr, h1, h2, update_svr_checker_state]

theorem smtp_final_exhausted_fields (st : CheckerState) (a : Bool)
    (h : st.retry ≤ st.retry_it + 1) :
    (smtp_final st true a).downCalled = (st.is_up || !st.has_run) ∧
    (smtp_final st true a).alerted =
      (st.rs_smtp_alert && st.is_up && ((st.rs_alive != a) || !st.no_checker_emails)) ∧
    (smtp_final st true a).st.retry_it = 0 ∧
    (smtp_final st true a).st.host_ctr = 0 ∧
    (smtp_final st true a).delay = st.delay_loop ∧
    (smtp_final st true a).st.is_up = false ∧
    (smtp_final st true a).st.has_run = true := by
  have hr : ¬(st.retry_it + 1 < st.retry) := by omega
  cases hu : st.is_up <;> cases hh : st.has_run <;>
    simp [smtp_final, hr, hu, hh, update_svr_checker_state]

theorem connect_in_range_frame (s : CheckerState) (n : Nat) (s1 b1 a1 : Bool)
    (he : s.enabled = true) (hlt : s.host_ctr < n) :
    (smtp_connect_thread s n s1 b1 a1).upCalled = false ∧
    (smtp_connect_thread s n s1 b1 a1).alerted = false ∧
    (smtp_connect_thread s n s1 b1 a1).st = s := by
  have hn : ¬(n ≤ s.host_ctr) := by omega
  cases s1 <;> cases b1 <;> simp [smtp_connect_thread, he, hn]

theorem connect_up_idem (s : CheckerState) (n : Nat) (s1 b1 a1 : Bool)
    (h1 : s.is_up = true) (h2 : s.has_run = true) :
    (smtp_connect_thread s n s1 b1 a1).upCalled = false ∧
    (smtp_connect_thread s n s1 b1 a1).alerted = false := by
  cases henb : s.enabled with
  | false => simp [smtp_connect_thread, henb]
  | true =>
    by_cases hn : n ≤ s.host_ctr
    · simp [smtp_connect_thread, henb, hn, h1, h2]
    · cases s1 <;> cases b1 <;> simp [smtp_connect_thread, henb, hn]

theorem connect_cycle_end_fields (st : CheckerState) (nhosts : Nat) (sOk bOk a : Bool)
    (he : st.enabled = true) (hpast : nhosts ≤ st.host_ctr) :
    (smtp_connect_thread st nhosts sOk bOk a).upCalled = (!st.is_up || !st.has_run) ∧
    (smtp_connect_thread st nhosts sOk bOk a).alerted =
      (st.rs_smtp_alert && !st.is_up && ((st.rs_alive != a) || !st.no_checker_emails)) ∧
    (smtp_connect_thread st nhosts sOk bOk a).st.retry_it = 0 ∧
    (smtp_connect_thread st nhosts sOk bOk a).st.host_ctr = 0 ∧
    (smtp_connect_thread st nhosts sOk bOk a).action = ConnAction.timerSelf ∧
    (smtp_connect_thread st nhosts sOk bOk a).delay = some st.delay_loop ∧
    (smtp_connect_thread st nhosts sOk bOk a).st.is_up = true ∧
    (smtp_connect_thread st nhosts sOk bOk a).st.has_run = true := by
  cases hu : st.is_up <;> cases hh : st.has_run <;>
    simp [smtp_connect_thread, he, hpast, hu, hh, update_svr_checker_state]

/-- A concrete checker state: up, has run, retry limit 1, probing the
second of two targets. -/
def upSample : CheckerState :=
  { retry_it := 0, retry := 1, delay_before_retry := 3, delay_loop := 60,
    is_up := true, has_run := true, rs_alive := true, rs_smtp_alert := true,
    no_checker_emails := false, enabled := true, host_ctr := 1 }

/-- A concrete checker state: down, has run, retry limit 2, index past
the end of a two target list. -/
def downSample : CheckerState :=
  { retry_it := 0, retry := 2, delay_before_retry := 3, delay_loop := 60,
    is_up := false, has_run := true, rs_alive := false, rs_smtp_alert := true,
    no_checker_emails := false, enabled := true, host_ctr := 2 }

/-! ## Claim theorems -/

/-- C2 evidence (code bug): with the buffer filled to capacity by
SMTP_BUFF_MAX bytes holding no line terminator, the callback re-registers
the wait; at the next wake-up the overflow guard (a strict greater-than,
never satisfiable since the read length is bounded by the remaining room)
leaves the buffer uncleared, the zero length read returns 0, and the
callback funnels a read failure into smtp_final -- the session does not
clear and keep accumulating until the read timeout as specified. -/
theorem full_buffer_read_failure :
    (smtp_get_line_cb co5 smtp_clear_buff ThreadType.ready
      (ReadRes.ok (List.replicate SMTP_BUFF_MAX 65))).1 = fullBuff ∧
    (smtp_get_line_cb co5 smtp_clear_buff ThreadType.ready
      (ReadRes.ok (List.replicate SMTP_BUFF_MAX 65))).2 = CbOut.reregister 5 ∧
    fullBuff.buff_ctr = SMTP_BUFF_MAX ∧
    hasNewline fullBuff = false ∧
    overflowGuard fullBuff = false ∧
    (smtp_get_line_cb co5 fullBuff ThreadType.ready (ReadRes.ok [])).1 = fullBuff ∧
    (smtp_get_line_cb co5 fullBuff ThreadType.ready (ReadRes.ok [])).2 =
      CbOut.finalErr ErrTag.readFailure :=
  ⟨rfl, by decide, by decide, by decide, by decide, by decide, by decide⟩

/-- C10 witness: the fully filled buffer reached by one maximal read from
a cleared buffer satisfies the invariant. -/
theorem buff_ctr_le_max_w :
    fullBuff.buff_ctr ≤ SMTP_BUFF_MAX ∧ overflowGuard fullBuff = false :=
  buff_ctr_le_max fullBuff
    (Relation.ReflTransGen.single
      (BuffStep.getLineCb smtp_clear_buff co5 ThreadType.ready
        (ReadRes.ok (List.replicate SMTP_BUFF_MAX 65)) (by simp only [ValidRead]; decide)))

/-- C9: every I/O wait the driver registers -- the initial read wait, each
re-registered read wait, the initial write wait and each re-registered
write wait -- carries the single per target timeout connection_to; the
read side and the write side use the same value. -/
theorem io_waits_single_timeout :
    (∀ co, (smtp_get_line co).2 = { kind := IOKind.read, timeout := co.connection_to }) ∧
    (∀ co b tt r t, (smtp_get_line_cb co b tt r).2 = CbOut.reregister t →
      t = co.connection_to) ∧
    (∀ co b, (smtp_put_line co b).2 = { kind := IOKind.write, timeout := co.connection_to }) ∧
    (∀ co tt w t, smtp_put_line_cb co tt w = CbOut.reregister t → t = co.connection_to) ∧
    (∀ co b, (smtp_get_line co).2.timeout = (smtp_put_line co b).2.timeout) := by
  refine ⟨fun co => rfl, ?_, fun co b => rfl, ?_, fun co b => rfl⟩
  · intro co b tt r t h
    cases r <;>
      · simp only [smtp_get_line_cb] at h
        split_ifs at h <;> simp_all
  · intro co tt w t h
    cases w <;>
      · simp only [smtp_put_line_cb] at h
        split_ifs at h <;> simp_all

/-- C4: on error with retries left after the increment, the only change is
the incremented retry counter; the same target is re-scheduled after the
retry backoff delay, with no transition and no alert; and on every path
the retry counter ends at 0 or strictly below the configured limit. -/
theorem smtp_final_retry_same_target (st : CheckerState) (a : Bool)
    (h : st.retry_it + 1 < st.retry) :
    smtp_final st true a =
      { st := { st with retry_it := st.retry_it + 1 },
        downCalled := false, alerted := false, delay := st.delay_before_retry } ∧
    (∀ s e aa, (smtp_final s e aa).st.retry_it = 0 ∨
      (smtp_final s e aa).st.retry_it < s.retry) :=
  ⟨smtp_final_retry_frame st a h, smtp_final_retry_bound⟩

/-- C4 witness at a concrete state with retry limit 2 and one prior
failure still to spend. -/
theorem smtp_final_retry_same_target_w :
    (smtp_final downSample true false).delay = 3 ∧
    (smtp_final downSample true false).downCalled = false := by
  have h := smtp_final_retry_same_target downSample false (by decide)
  rw [h.1]
  exact ⟨rfl, rfl⟩

/-- C3: on error with retries exhausted, update_svr_checker_state(DOWN) is
called iff the checker was up or has never run; the alert fires iff the
alert flag is set, the checker was up, and the alive flag flipped or
alerts are not suppressed; retry counter and target index reset to 0 and
the orchestrator is re-scheduled after the full cycle delay; afterwards
the checker is down and marked as having run, and from any such state a
further exhausted failure produces no transition call and no alert. -/
theorem smtp_final_failover (st : CheckerState) (a : Bool)
    (h : st.retry ≤ st.retry_it + 1) :
    (smtp_final st true a).downCalled = (st.is_up || !st.has_run) ∧
    (smtp_final st true a).alerted =
      (st.rs_smtp_alert && st.is_up && ((st.rs_alive != a) || !st.no_checker_emails)) ∧
    (smtp_final st true a).st.retry_it = 0 ∧
    (smtp_final st true a).st.host_ctr = 0 ∧
    (smtp_final st true a).delay = st.delay_loop ∧
    (smtp_final st true a).st.is_up = false ∧
    (smtp_final st true a).st.has_run = true ∧
    (∀ s aa, s.is_up = false → s.has_run = true →
      (smtp_final s true aa).downCalled = false ∧ (smtp_final s true aa).alerted = false ∧
      (smtp_final s true aa).st.is_up = false ∧ (smtp_final s true aa).st.has_run = true) := by
  obtain ⟨d, al, r0, hc, dl, iu, hr⟩ := smtp_final_exhausted_fields st a h
  exact ⟨d, al, r0, hc, dl, iu, hr, fun s aa h1 h2 => smtp_final_down_idem s aa h1 h2⟩

/-- C3 witness: an up checker with retry limit 1 exhausts on its first
failure, alerts (the oracle alive flag flips) and resets the target
index. -/
theorem smtp_final_failover_w :
    (smtp_final upSample true false).alerted = true ∧
    (smtp_final upSample true false).st.host_ctr = 0 := by
  have h := smtp_final_failover upSample false (by decide)
  refine ⟨?_, h.2.2.2.1⟩
  rw [h.2.1]
  decide

/-- C6: on success the retry counter resets to 0, the target index
advances by one, the orchestrator is re-scheduled on the minimal one tick
delay, and no transition or alert happens. -/
theorem smtp_final_success (st : CheckerState) (a : Bool) :
    smtp_final st false a =
      { st := { st with retry_it := 0, host_ctr := st.host_ctr + 1 },
        downCalled := false, alerted := false, delay := 1 } := by
  simp [smtp_final]

/-- C5: with the target index past the end of the list,
update_svr_checker_state(UP) is called iff the checker was down or never
ran; the recovery alert fires iff the alert flag is set, the checker was
not already up, and the alive flag changed or alerts are not suppressed;
index and retry counter reset to 0 and the orchestrator re-schedules after
the full cycle delay, leaving the checker up and run; an in range
invocation changes nothing and never raises a transition, and once up and
run no invocation raises another one. -/
theorem smtp_connect_thread_cycle_end (st : CheckerState) (nhosts : Nat) (sOk bOk a : Bool)
    (he : st.enabled = true) (hpast : nhosts ≤ st.host_ctr) :
    (smtp_connect_thread st nhosts sOk bOk a).upCalled = (!st.is_up || !st.has_run) ∧
    (smtp_connect_thread st nhosts sOk bOk a).alerted =
      (st.rs_smtp_alert && !st.is_up && ((st.rs_alive != a) || !st.no_checker_emails)) ∧
    (smtp_connect_thread st nhosts sOk bOk a).st.retry_it = 0 ∧
    (smtp_connect_thread st nhosts sOk bOk a).st.host_ctr = 0 ∧
    (smtp_connect_thread st nhosts sOk bOk a).action = ConnAction.timerSelf ∧
    (smtp_connect_thread st nhosts sOk bOk a).delay = some st.delay_loop ∧
    (smtp_connect_thread st nhosts sOk bOk a).st.is_up = true ∧
    (smtp_connect_thread st nhosts sOk bOk a).st.has_run = true ∧
    (∀ s n s1 b1 a1, s.enabled = true → s.host_ctr < n →
      (smtp_connect_thread s n s1 b1 a1).upCalled = false ∧
      (smtp_connect_thread s n s1 b1 a1).alerted = false ∧
      (smtp_connect_thread s n s1 b1 a1).st = s) ∧
    (∀ s n s1 b1 a1, s.is_up = true → s.has_run = true →
      (smtp_connect_thread s n s1 b1 a1).upCalled = false ∧
      (smtp_connect_thread s n s1 b1 a1).alerted = false) := by
  obtain ⟨u, al, r0, hc, ac, dl, iu, hr⟩ := connect_cycle_end_fields st nhosts sOk bOk a he hpast
  exact ⟨u, al, r0, hc, ac, dl, iu, hr,
    fun s n s1 b1 a1 hen hlt => connect_in_range_frame s n s1 b1 a1 hen hlt,
    fun s n s1 b1 a1 h1 h2 => connect_up_idem s n s1 b1 a1 h1 h2⟩

/-- C5 witness: a down checker whose index has run past its two targets
is brought up with an alert and the index reset. -/
theorem smtp_connect_thread_cycle_end_w :
    (smtp_connect_thread downSample 2 true true true).upCalled = true ∧
    (smtp_connect_thread downSample 2 true true true).alerted = true ∧
    (smtp_connect_thread downSample 2 true true true).st.host_ctr = 0 := by
  have h := smtp_connect_thread_cycle_end downSample 2 true true true (by decide) (by decide)
  refine ⟨?_, ?_, h.2.2.2.1⟩
  · rw [h.1]
    decide
  · rw [h.2.1]
    decide

/-- C8: a socket creation failure or a bind/connect registration failure
in range only re-schedules the orchestrator after the full cycle delay;
the state (retry counter, target index, health flags) is unchanged and no
transition or alert is raised. -/
theorem smtp_connect_thread_local_failure (st : CheckerState) (nhosts : Nat)
    (sOk bOk a : Bool) (he : st.enabled = true) (hin : st.host_ctr < nhosts)
    (hf : sOk = false ∨ bOk = false) :
    smtp_connect_thread st nhosts sOk bOk a =
      { st := st, upCalled := false, alerted := false,
        action := ConnAction.timerSelf, delay := some st.delay_loop } := by
  have hn : ¬(nhosts ≤ st.host_ctr) := by omega
  rcases hf with hf | hf
  · simp [smtp_connect_thread, he, hn, hf]
  · cases hs1 : sOk
    · simp [smtp_connect_thread, he, hn, hs1]
    · simp [smtp_connect_thread, he, hn, hs1, hf]

/-- C8 witness: a socket creation failure with one target still to probe
leaves the sample state untouched and re-schedules on the full cycle
delay. -/
theorem smtp_connect_thread_local_failure_w :
    (smtp_connect_thread upSample 2 false true false).st = upSample ∧
    (smtp_connect_thread upSample 2 false true false).delay = some 60 := by
  have h := smtp_connect_thread_local_failure upSample 2 false true false
    (by decide) (by decide) (Or.inl rfl)
  rw [h]
  exact ⟨rfl, rfl⟩

/-- C7: the exact step order of the protocol engine: Start schedules the
banner receive; HaveBanner requires status 220 (else a bad greeting
failure) and sends the formatted HELO line; SentHelo schedules the reply
receive; RecvHelo requires 250 (else a bad HELO response failure) and
sends QUIT; SentQuit schedules the reply receive; RecvQuit succeeds to
Finalization whatever the status; every state value outside the six
reaches Finalization as an unknown state error. The concrete round trip
of the spec produces exactly the HELO and QUIT lines and a no error
verdict. -/
theorem smtp_engine_step_order :
    (∀ helo b, smtp_engine_thread helo SMTP_START b =
      (SMTP_HAVE_BANNER, smtp_clear_buff, EngineAct.getLine)) ∧
    (∀ helo b, smtp_get_status b.buff ≠ 220 →
      smtp_engine_thread helo SMTP_HAVE_BANNER b =
        (SMTP_HAVE_BANNER, b, EngineAct.final true (some ErrTag.badBanner))) ∧
    (∀ helo b, smtp_get_status b.buff = 220 →
      smtp_engine_thread helo SMTP_HAVE_BANNER b =
        (SMTP_SENT_HELO, putLineBuff (snprintfBuff b (heloMsg helo)), EngineAct.putLine)) ∧
    (∀ helo b, smtp_engine_thread helo SMTP_SENT_HELO b =
      (SMTP_RECV_HELO, smtp_clear_buff, EngineAct.getLine)) ∧
    (∀ helo b, smtp_get_status b.buff ≠ 250 →
      smtp_engine_thread helo SMTP_RECV_HELO b =
        (SMTP_RECV_HELO, b, EngineAct.final true (some ErrTag.badHelo))) ∧
    (∀ helo b, smtp_get_status b.buff = 250 →
      smtp_engine_thread helo SMTP_RECV_HELO b =
        (SMTP_SENT_QUIT, putLineBuff (snprintfBuff b quitMsg), EngineAct.putLine)) ∧
    (∀ helo b, smtp_engine_thread helo SMTP_SENT_QUIT b =
      (SMTP_RECV_QUIT, smtp_clear_buff, EngineAct.getLine)) ∧
    (∀ helo b, smtp_engine_thread helo SMTP_RECV_QUIT b =
      (SMTP_RECV_QUIT, b, EngineAct.final false none)) ∧
    (∀ helo b s, SMTP_RECV_QUIT < s → smtp_engine_thread helo s b =
      (s, b, EngineAct.final true (some ErrTag.unknownState))) ∧
    runSession (asciiBytes "probe") 20 SMTP_START smtp_clear_buff
      [asciiBytes "220 mail.example.com\r\n", asciiBytes "250 Hello\r\n",
       asciiBytes "221 Bye\r\n"] [] =
    ([asciiBytes "HELO probe\r\n", asciiBytes "QUIT\r\n"], some (false, none)) := by
  refine ⟨fun helo b => rfl, ?_, ?_, fun helo b => rfl, ?_, ?_, fun helo b => rfl,
    fun helo b => rfl, ?_, by decide⟩
  · intro helo b h
    simp [smtp_engine_thread, SMTP_START, SMTP_HAVE_BANNER, h]
  · intro helo b h
    simp [smtp_engine_thread, SMTP_START, SMTP_HAVE_BANNER, SMTP_SENT_HELO, h]
  · intro helo b h
    simp [smtp_engine_thread, SMTP_START, SMTP_HAVE_BANNER, SMTP_SENT_HELO,
      SMTP_RECV_HELO, h]
  · intro helo b h
    simp [smtp_engine_thread, SMTP_START, SMTP_HAVE_BANNER, SMTP_SENT_HELO,
      SMTP_RECV_HELO, SMTP_SENT_QUIT, h]
  · intro helo b s hs
    simp only [SMTP_RECV_QUIT] at hs
    have h0 : ¬(s = 0) := by omega
    have h1 : ¬(s = 1) := by omega
    have h2 : ¬(s = 2) := by omega
    have h3 : ¬(s = 3) := by omega
    have h4 : ¬(s = 4) := by omega
    have h5 : ¬(s = 5) := by omega
    simp [smtp_engine_thread, SMTP_START, SMTP_HAVE_BANNER, SMTP_SENT_HELO,
      SMTP_RECV_HELO, SMTP_SENT_QUIT, SMTP_RECV_QUIT, h0, h1, h2, h3, h4, h5]

end CheckSmtp